import Mathlib

/-
  Verification development for the bankid-rs client library.

  The Rust sources (src/lib.rs, src/request.rs, src/response.rs) are shallowly
  embedded below.  Strings are modelled as lists of unicode scalar values
  (List Char), machine integers as Nat with explicit range checks where the
  source performs them, JSON documents as an inductive Json type, and the
  serde derived encoders and decoders as explicit Lean functions that follow
  the documented serde semantics for the attributes used in the source
  (rename_all = camelCase, tag = status, skip_serializing_if, rename).
-/

namespace BankidRs

/-! ## Character and digit primitives -/

/-- The character class [0-9] of the regular expression in
PersonalNumer::parse, and the digit test of str::parse. -/
def isDigitc (c : Char) : Bool := 48 ≤ c.toNat && c.toNat ≤ 57

/-- The character class [19|20] of the regular expression: it is a plain
character class, so it matches one single character among 1, 9, the pipe
character, 2 and 0. -/
def isYearHeadc (c : Char) : Bool :=
  c = '1' || c = '9' || c = '|' || c = '2' || c = '0'

/-- The character class [- ] (separator) of the regular expression. -/
def isSepc (c : Char) : Bool := c = '-' || c = ' '

/-- Numeric value of a digit character. -/
def dval (c : Char) : Nat := c.toNat - 48

/-- Value of a digit string, most significant digit first.  This is the
mathematical content of str::parse::<uN> on an all-digit slice. -/
def val : List Char → Nat
  | [] => 0
  | c :: cs => dval c * 10 ^ cs.length + val cs

/-- The decimal digit character for d < 10. -/
def digitChar (d : Nat) : Char := Char.ofNat (48 + d)

/-- Fuel-driven decimal digit list of a natural number, most significant
first.  With fuel larger than n this is the standard decimal
representation, as produced by Rust Display for unsigned integers. -/
def digitsAux : Nat → Nat → List Char
  | 0, _ => []
  | fuel + 1, n =>
    if n < 10 then [digitChar n]
    else digitsAux fuel (n / 10) ++ [digitChar (n % 10)]

/-- Decimal representation of a natural number (no padding). -/
def natDecimal (n : Nat) : List Char := digitsAux (n + 1) n

/-- Zero padding to width w, as done by the Rust format specifier {:0w}
for values whose decimal form is at most w digits wide. -/
def zeroPad (w : Nat) (l : List Char) : List Char :=
  List.replicate (w - l.length) '0' ++ l

/-- The Rust format specifier {:0w} applied to a natural number. -/
def fmtNat (w n : Nat) : List Char := zeroPad w (natDecimal n)

/-! ## Error taxonomy (src/lib.rs, enum Error and reqwest::Error) -/

/-- Model of the distinguishable conditions inside a reqwest::Error as the
bankid-rs code can produce one: a transport failure that happens before any
HTTP status is available (connect, TLS, timeout), a body decode failure
(reqwest Response::json), and a builder failure. -/
inductive ReqwestErrorKind where
  | transport (msg : String)
  | decode
  | builder
deriving DecidableEq

/-- src/response.rs enum ErrorCode. -/
inductive ErrorCode where
  | AlreadyInProgress
  | InvalidParameters
  | Canceled
  | Unauthorized
  | NotFound
  | RequestTimeout
  | UnsupportedMediaType
  | InternalError
  | Maintenance
deriving DecidableEq

/-- src/response.rs struct ClientError. -/
structure ClientError where
  error_code : ErrorCode
  details : String
deriving DecidableEq

/-- src/lib.rs enum Error. -/
inductive Error where
  | InvalidPersonalNumber (reason : String)
  | ReqwestError (e : ReqwestErrorKind)
  | ClientError (e : ClientError)
deriving DecidableEq

/-! ## PersonalNumer (src/lib.rs) -/

/-- src/lib.rs struct PersonalNumer (field widths u16, u8, u8, u16 are
modelled as Nat; parse enforces the numeric bounds of the source). -/
structure PersonalNumer where
  year : Nat
  month : Nat
  day : Nat
  last_four_digits : Nat
deriving DecidableEq

/-- The part of the regular expression after the year group:
([0-9]{2})([0-9]{2})[- ]?([0-9]{4})$ with the greedy optional separator.
Given the text remaining after the year group, returns the captures of
groups 2, 3 and 4.  The separator character classes are disjoint from the
digit class, so the greedy optional element is deterministic: a remainder
of five characters must start with a separator, a remainder of four must be
the four serial digits. -/
def matchRest (l : List Char) :
    Option (List Char × List Char × List Char) :=
  match l with
  | m1 :: m2 :: d1 :: d2 :: rest =>
    if isDigitc m1 && isDigitc m2 && isDigitc d1 && isDigitc d2 then
      match rest with
      | [n1, n2, n3, n4] =>
        if isDigitc n1 && isDigitc n2 && isDigitc n3 && isDigitc n4 then
          some ([m1, m2], [d1, d2], [n1, n2, n3, n4])
        else none
      | [sp, n1, n2, n3, n4] =>
        if isSepc sp && (isDigitc n1 && isDigitc n2 && isDigitc n3 && isDigitc n4) then
          some ([m1, m2], [d1, d2], [n1, n2, n3, n4])
        else none
      | _ => none
    else none
  | _ => none

/-- Captures of the anchored regular expression
^([19|20][0-9]{2}|[0-9]{4})([0-9]{2})([0-9]{2})[- ]?([0-9]{4})$
under the leftmost-first alternation semantics of the regex crate: the
first alternative of group 1 (one character of [19|20] followed by two
digits, three characters in total) is preferred; the second alternative
(four digits) is used when no overall match exists through the first. -/
def pnoCaptures (s : List Char) :
    Option (List Char × List Char × List Char × List Char) :=
  match s with
  | y1 :: y2 :: y3 :: rest =>
    match (if isYearHeadc y1 && isDigitc y2 && isDigitc y3 then
            (matchRest rest).map (fun g => ([y1, y2, y3], g.1, g.2.1, g.2.2))
           else none) with
    | some caps => some caps
    | none =>
      match rest with
      | y4 :: rest2 =>
        if isDigitc y1 && isDigitc y2 && isDigitc y3 && isDigitc y4 then
          (matchRest rest2).map (fun g => ([y1, y2, y3, y4], g.1, g.2.1, g.2.2))
        else none
      | [] => none
  | _ => none

/-- The inner helper parse_part of PersonalNumer::parse: str::parse::<F>
on a capture, rejecting values that overflow the integer width maxVal.
The captures consist of digits and possibly the pipe character, on which
the numeric parse fails. -/
def parse_part (maxVal : Nat) (l : List Char) : Except Error Nat :=
  if !l.isEmpty && l.all isDigitc && val l ≤ maxVal then .ok (val l)
  else .error (.InvalidPersonalNumber "Failed to parse match to numeric value")

/-- src/lib.rs PersonalNumer::parse.  The is_match test and the captures
call evaluate the same pattern; the captures.len() == 5 internal check
always passes on a match (group 0 plus four groups), so it is not a
reachable error path. -/
def PersonalNumer.parse (s : List Char) : Except Error PersonalNumer :=
  match pnoCaptures s with
  | none => .error (.InvalidPersonalNumber "Personal number does not match expression")
  | some (g1, g2, g3, g4) =>
    match parse_part 65535 g1 with
    | .error e => .error e
    | .ok year =>
      match parse_part 255 g2 with
      | .error e => .error e
      | .ok month =>
        match parse_part 255 g3 with
        | .error e => .error e
        | .ok day =>
          match parse_part 65535 g4 with
          | .error e => .error e
          | .ok last_four_digits => .ok { year, month, day, last_four_digits }

/-- src/lib.rs impl Display for PersonalNumer:
write!("{:04}{:02}{:02}{:04}", year, month, day, last_four_digits). -/
def render (p : PersonalNumer) : List Char :=
  fmtNat 4 p.year ++ fmtNat 2 p.month ++ fmtNat 2 p.day ++
    fmtNat 4 p.last_four_digits

/-- True when parse produced the InvalidPersonalNumber error. -/
def isInvalidPersonalNumber : Except Error PersonalNumer → Bool
  | .error (.InvalidPersonalNumber _) => true
  | _ => false

/-- The complement of the rejection condition of claim C1: the input is all
digits, except possibly one single separator character placed immediately
before the last four digits. -/
def goodShape (s : List Char) : Prop :=
  s.all isDigitc = true ∨
    ∃ pre sp post, s = pre ++ sp :: post ∧ isSepc sp = true ∧
      pre.all isDigitc = true ∧ post.all isDigitc = true ∧ post.length = 4

/-! ## JSON document model (serde_json values) -/

/-- A JSON value.  Objects are key-value lists in emission order; the
decoders look fields up by key, matching the order independence of serde
map deserialization. -/
inductive Json where
  | null : Json
  | bool : Bool → Json
  | num : Int → Json
  | str : String → Json
  | arr : List Json → Json
  | obj : List (String × Json) → Json

/-- Field lookup in a JSON object, first occurrence wins. -/
def jget (k : String) (fields : List (String × Json)) : Option Json :=
  match fields with
  | [] => none
  | (k2, v) :: rest => if k2 = k then some v else jget k rest

/-! ## Wire spellings of the enums (serde rename_all = camelCase, and the
explicit rename = cancelled on CollectHintCode::Canceled) -/

/-- src/response.rs enum CollectHintCode. -/
inductive CollectHintCode where
  | OutstandingTransaction
  | NoClient
  | Started
  | UserSign
  | ExpiredTransaction
  | CertificateErr
  | UserCancel
  | Canceled
  | StartFailed
deriving DecidableEq

/-- Serialization of CollectHintCode: camelCase variant names, except the
explicit serde rename of Canceled to the double-l spelling cancelled. -/
def CollectHintCode.wire : CollectHintCode → String
  | .OutstandingTransaction => "outstandingTransaction"
  | .NoClient => "noClient"
  | .Started => "started"
  | .UserSign => "userSign"
  | .ExpiredTransaction => "expiredTransaction"
  | .CertificateErr => "certificateErr"
  | .UserCancel => "userCancel"
  | .Canceled => "cancelled"
  | .StartFailed => "startFailed"

/-- Deserialization of CollectHintCode from its wire string: exact match
on the rename table, anything else is a decode error. -/
def collectHintCodeFromWire (s : String) : Option CollectHintCode :=
  if s = "outstandingTransaction" then some .OutstandingTransaction
  else if s = "noClient" then some .NoClient
  else if s = "started" then some .Started
  else if s = "userSign" then some .UserSign
  else if s = "expiredTransaction" then some .ExpiredTransaction
  else if s = "certificateErr" then some .CertificateErr
  else if s = "userCancel" then some .UserCancel
  else if s = "cancelled" then some .Canceled
  else if s = "startFailed" then some .StartFailed
  else none

/-- Serialization of ErrorCode: camelCase variant names (no renames). -/
def ErrorCode.wire : ErrorCode → String
  | .AlreadyInProgress => "alreadyInProgress"
  | .InvalidParameters => "invalidParameters"
  | .Canceled => "canceled"
  | .Unauthorized => "unauthorized"
  | .NotFound => "notFound"
  | .RequestTimeout => "requestTimeout"
  | .UnsupportedMediaType => "unsupportedMediaType"
  | .InternalError => "internalError"
  | .Maintenance => "maintenance"

/-- Deserialization of ErrorCode from its wire string. -/
def errorCodeFromWire (s : String) : Option ErrorCode :=
  if s = "alreadyInProgress" then some .AlreadyInProgress
  else if s = "invalidParameters" then some .InvalidParameters
  else if s = "canceled" then some .Canceled
  else if s = "unauthorized" then some .Unauthorized
  else if s = "notFound" then some .NotFound
  else if s = "requestTimeout" then some .RequestTimeout
  else if s = "unsupportedMediaType" then some .UnsupportedMediaType
  else if s = "internalError" then some .InternalError
  else if s = "maintenance" then some .Maintenance
  else none

/-! ## Auxiliary wire types (uuid crate, std::net::IpAddr) -/

/-- Hexadecimal digit test. -/
def isHexc (c : Char) : Bool :=
  isDigitc c || (97 ≤ c.toNat && c.toNat ≤ 102) || (65 ≤ c.toNat && c.toNat ≤ 70)

/-- An order token (uuid::Uuid), kept in its textual form. -/
structure Uuid where
  text : String
deriving DecidableEq

/-- Wellformedness of the hyphenated uuid text form 8-4-4-4-12.  This is
the shape produced by the remote service; other textual forms accepted by
the uuid crate (simple, braced, urn) are not needed by any claim and are
not modelled. -/
def uuidWf (s : String) : Bool :=
  let l := s.toList
  l.length = 36 && (List.range 36).all (fun i =>
    if i = 8 || i = 13 || i = 18 || i = 23 then l.getD i ' ' = '-'
    else isHexc (l.getD i ' '))

/-- serde deserialization of a Uuid: a JSON string in uuid form. -/
def decodeUuid (j : Json) : Option Uuid :=
  match j with
  | .str s => if uuidWf s then some ⟨s⟩ else none
  | _ => none

/-- An end-user IP address (std::net::IpAddr), kept in its textual form. -/
structure IpAddr where
  text : String
deriving DecidableEq

/-- One decimal octet of a dotted-quad IPv4 address: digits only, value at
most 255, no superfluous leading zero. -/
def ipv4Octet (l : List Char) : Bool :=
  !l.isEmpty && l.all isDigitc && val l ≤ 255 &&
    (decide (l.length = 1) || l.headD ' ' ≠ '0')

/-- Split a character list at every occurrence of the given character. -/
def splitOnc (sep : Char) : List Char → List (List Char)
  | [] => [[]]
  | c :: rest =>
    let r := splitOnc sep rest
    if c = sep then [] :: r
    else
      match r with
      | h :: t => (c :: h) :: t
      | [] => [[c]]

/-- Wellformedness of a dotted-quad IPv4 address, per the std FromStr
grammar (four decimal octets 0 to 255, no leading zeros).  IPv6 textual
forms are accepted by the source via std::net::IpAddr but are not needed
by any claim and are not modelled. -/
def ipv4Wf (s : String) : Bool :=
  match splitOnc '.' s.toList with
  | [a, b, c, d] => ipv4Octet a && ipv4Octet b && ipv4Octet c && ipv4Octet d
  | _ => false

/-- serde deserialization of an IpAddr: a JSON string in address form. -/
def decodeIpAddr (j : Json) : Option IpAddr :=
  match j with
  | .str s => if ipv4Wf s then some ⟨s⟩ else none
  | _ => none

/-- serde serialization of an IpAddr (Display form). -/
def serializeIpAddr (a : IpAddr) : Json := .str a.text

/-! ## PersonalNumer serde (src/lib.rs impl Serialize and Deserialize) -/

/-- impl Serialize for PersonalNumer: serializes self.to_string(). -/
def serializePersonalNumer (p : PersonalNumer) : Json := .str (String.mk (render p))

/-- impl Deserialize for PersonalNumer: deserializes a string and runs
PersonalNumer::parse on it, turning a parse error into a decode error. -/
def decodePersonalNumer (j : Json) : Option PersonalNumer :=
  match j with
  | .str s =>
    match PersonalNumer.parse s.toList with
    | .ok p => some p
    | .error _ => none
  | _ => none

/-! ## Response decoding (src/response.rs) -/

/-- src/response.rs struct OrderResponse. -/
structure OrderResponse where
  order_ref : Uuid
  auto_start_token : Uuid
  qr_start_token : Uuid
  qr_start_secret : Uuid
deriving DecidableEq

/-- serde deserialization of OrderResponse (camelCase keys, every field
required, unknown fields ignored). -/
def decodeOrderResponse (j : Json) : Option OrderResponse :=
  match j with
  | .obj fields => do
    let order_ref ← jget "orderRef" fields >>= decodeUuid
    let auto_start_token ← jget "autoStartToken" fields >>= decodeUuid
    let qr_start_token ← jget "qrStartToken" fields >>= decodeUuid
    let qr_start_secret ← jget "qrStartSecret" fields >>= decodeUuid
    pure ⟨order_ref, auto_start_token, qr_start_token, qr_start_secret⟩
  | _ => none

/-- serde deserialization of a JSON string. -/
def decodeString (j : Json) : Option String :=
  match j with
  | .str s => some s
  | _ => none

/-- serde deserialization of ClientError (camelCase keys). -/
def decodeClientError (j : Json) : Option ClientError :=
  match j with
  | .obj fields => do
    let codeJson ← jget "errorCode" fields
    let codeStr ← decodeString codeJson
    let error_code ← errorCodeFromWire codeStr
    let details ← jget "details" fields >>= decodeString
    pure ⟨error_code, details⟩
  | _ => none

/-- src/response.rs struct User. -/
structure User where
  personal_number : PersonalNumer
  name : String
  given_name : String
  surname : String
deriving DecidableEq

/-- serde deserialization of User. -/
def decodeUser (j : Json) : Option User :=
  match j with
  | .obj fields => do
    let personal_number ← jget "personalNumber" fields >>= decodePersonalNumer
    let name ← jget "name" fields >>= decodeString
    let given_name ← jget "givenName" fields >>= decodeString
    let surname ← jget "surname" fields >>= decodeString
    pure ⟨personal_number, name, given_name, surname⟩
  | _ => none

/-- src/response.rs struct Device. -/
structure Device where
  ip_address : IpAddr
deriving DecidableEq

/-- serde deserialization of Device. -/
def decodeDevice (j : Json) : Option Device :=
  match j with
  | .obj fields => do
    let ip_address ← jget "ipAddress" fields >>= decodeIpAddr
    pure ⟨ip_address⟩
  | _ => none

/-- src/response.rs struct Cert. -/
structure Cert where
  not_before : String
  not_after : String
deriving DecidableEq

/-- serde deserialization of Cert. -/
def decodeCert (j : Json) : Option Cert :=
  match j with
  | .obj fields => do
    let not_before ← jget "notBefore" fields >>= decodeString
    let not_after ← jget "notAfter" fields >>= decodeString
    pure ⟨not_before, not_after⟩
  | _ => none

/-- src/response.rs struct CompletionData. -/
structure CompletionData where
  user : User
  device : Device
  cert : Cert
  signature : String
  ocsp_response : String
deriving DecidableEq

/-- serde deserialization of CompletionData. -/
def decodeCompletionData (j : Json) : Option CompletionData :=
  match j with
  | .obj fields => do
    let user ← jget "user" fields >>= decodeUser
    let device ← jget "device" fields >>= decodeDevice
    let cert ← jget "cert" fields >>= decodeCert
    let signature ← jget "signature" fields >>= decodeString
    let ocsp_response ← jget "ocspResponse" fields >>= decodeString
    pure ⟨user, device, cert, signature, ocsp_response⟩
  | _ => none

/-- src/response.rs enum CollectResponse: an internally tagged union
discriminated by the status field, with camelCase tags pending, failed,
complete, and camelCase field keys inside each variant. -/
inductive CollectResponse where
  | Pending (hint_code : CollectHintCode) (order_ref : Uuid)
  | Failed (hint_code : CollectHintCode)
  | Complete (completion_data : CompletionData) (order_ref : Uuid)
deriving DecidableEq

/-- serde deserialization of CollectResponse: the status tag selects the
variant; a tag outside the three known literals is a decode error, never a
default variant.  Variant fields are looked up in the same object; any
missing or ill-typed field is a decode error. -/
def decodeCollectResponse (j : Json) : Option CollectResponse :=
  match j with
  | .obj fields =>
    match jget "status" fields with
    | some (.str s) =>
      if s = "pending" then do
        let hint_code ← jget "hintCode" fields >>= (fun x => decodeString x) >>= collectHintCodeFromWire
        let order_ref ← jget "orderRef" fields >>= decodeUuid
        pure (.Pending hint_code order_ref)
      else if s = "failed" then do
        let hint_code ← jget "hintCode" fields >>= (fun x => decodeString x) >>= collectHintCodeFromWire
        pure (.Failed hint_code)
      else if s = "complete" then do
        let completion_data ← jget "completionData" fields >>= decodeCompletionData
        let order_ref ← jget "orderRef" fields >>= decodeUuid
        pure (.Complete completion_data order_ref)
      else none
    | _ => none
  | _ => none

/-- src/response.rs struct CancelResponse: an empty struct, deserialized
from any JSON object (unknown fields ignored). -/
structure CancelResponse where
deriving DecidableEq

/-- serde deserialization of CancelResponse. -/
def decodeCancelResponse (j : Json) : Option CancelResponse :=
  match j with
  | .obj _ => some ⟨⟩
  | _ => none

/-! ## Request serialization (src/request.rs) -/

/-- src/request.rs enum CardReaderClass. -/
inductive CardReaderClass where
  | Class1
  | Class2
deriving DecidableEq

/-- serde serialization of CardReaderClass (camelCase). -/
def CardReaderClass.wire : CardReaderClass → String
  | .Class1 => "class1"
  | .Class2 => "class2"

/-- src/request.rs struct Requirement: every field optional. -/
structure Requirement where
  certificate_policies : Option (List String)
  allow_fingerprint : Option Bool
  auto_start_token_required : Option Bool
  issuer_cn : Option Bool
  card_reader : Option CardReaderClass
deriving DecidableEq

/-- The emission of one field marked skip_serializing_if Option::is_none:
no key at all when the value is absent. -/
def optField (k : String) (v : Option Json) : List (String × Json) :=
  match v with
  | none => []
  | some j => [(k, j)]

/-- serde serialization of Requirement: camelCase keys, each field marked
skip_serializing_if Option::is_none. -/
def serializeRequirement (r : Requirement) : Json :=
  .obj (optField "certificatePolicies" (r.certificate_policies.map (fun l => Json.arr (l.map .str)))
    ++ optField "allowFingerprint" (r.allow_fingerprint.map .bool)
    ++ optField "autoStartTokenRequired" (r.auto_start_token_required.map .bool)
    ++ optField "issuerCn" (r.issuer_cn.map .bool)
    ++ optField "cardReader" (r.card_reader.map (fun c => Json.str c.wire)))

/-- src/request.rs struct AuthRequest. -/
structure AuthRequest where
  end_user_ip : IpAddr
  personal_number : Option PersonalNumer
  requirement : Option Requirement
deriving DecidableEq

/-- serde serialization of AuthRequest: camelCase keys; personal_number
and requirement both carry skip_serializing_if Option::is_none, so an
absent value emits no key. -/
def serializeAuthRequest (r : AuthRequest) : Json :=
  .obj ([("endUserIp", serializeIpAddr r.end_user_ip)]
    ++ optField "personalNumber" (r.personal_number.map serializePersonalNumer)
    ++ optField "requirement" (r.requirement.map serializeRequirement))

/-- src/request.rs struct SignRequest. -/
structure SignRequest where
  end_user_ip : IpAddr
  personal_number : Option PersonalNumer
  requirement : Option Requirement
  user_visible_data : Option String
  user_non_visible_data : Option String
deriving DecidableEq

/-- serde serialization of SignRequest: camelCase keys.  In the source the
personal_number field carries no skip_serializing_if attribute (unlike the
other optional fields of the same struct and of AuthRequest), so serde
emits the key personalNumber with a JSON null when the value is absent.
The remaining optional fields are marked skip_serializing_if and emit no
key when absent. -/
def serializeSignRequest (r : SignRequest) : Json :=
  .obj ([("endUserIp", serializeIpAddr r.end_user_ip)]
    ++ [("personalNumber",
          match r.personal_number with
          | none => Json.null
          | some p => serializePersonalNumer p)]
    ++ optField "requirement" (r.requirement.map serializeRequirement)
    ++ optField "userVisibleData" (r.user_visible_data.map .str)
    ++ optField "userNonVisibleData" (r.user_non_visible_data.map .str))

/-- src/request.rs struct CollectRequest. -/
structure CollectRequest where
  order_ref : Uuid
deriving DecidableEq

/-- serde serialization of CollectRequest. -/
def serializeCollectRequest (r : CollectRequest) : Json :=
  .obj [("orderRef", .str r.order_ref.text)]

/-- src/request.rs struct CancelRequest. -/
structure CancelRequest where
  order_ref : Uuid
deriving DecidableEq

/-- serde serialization of CancelRequest. -/
def serializeCancelRequest (r : CancelRequest) : Json :=
  .obj [("orderRef", .str r.order_ref.text)]

/-! ## URL handling (reqwest::Url as used by Client::base_uri) -/

/-- A parsed absolute URL: scheme, host, and path segments (a trailing
empty segment encodes a trailing slash). -/
structure Url where
  scheme : String
  host : String
  segments : List String
deriving DecidableEq

/-- Splits scheme:// from the rest of a URL text. -/
def splitScheme : List Char → Option (List Char × List Char)
  | [] => none
  | ':' :: '/' :: '/' :: rest => some ([], rest)
  | c :: rest => (splitScheme rest).map (fun p => (c :: p.1, p.2))

/-- Model of Url::parse for absolute hierarchical URLs of the shape
scheme://host/segments, the only shape the client uses (the two base
address constants).  none models a parse failure, which the source turns
into a panic via expect. -/
def urlParse (s : String) : Option Url :=
  match splitScheme s.toList with
  | none => none
  | some (scheme, rest) =>
    if scheme.isEmpty then none
    else
      match splitOnc '/' rest with
      | [] => none
      | host :: segs =>
        if host.isEmpty then none
        else some ⟨String.mk scheme, String.mk host, segs.map String.mk⟩

/-- Model of Url::join for a plain relative reference (one path segment,
no slash, no scheme, no query or fragment), the only shape the client
uses: the last segment of the base path is replaced by the reference, per
RFC 3986 merge.  none models a join failure, which the source turns into a
panic via expect. -/
def urlJoin (u : Url) (path : String) : Option Url :=
  if !path.isEmpty &&
      path.toList.all (fun c => c ≠ '/' && c ≠ ':' && c ≠ '?' && c ≠ '#') then
    some ⟨u.scheme, u.host, u.segments.dropLast ++ [path]⟩
  else none

/-! ## Client (src/lib.rs) -/

/-- src/lib.rs struct Client: the reqwest client machinery is external;
the core state is the environment flag. -/
structure Client where
  test : Bool
deriving DecidableEq

/-- src/lib.rs Client::new.  The embedded root certificate constants
always base64-decode and PEM-parse (their failure would be a panic via
expect, not an Error); the only Result path is the reqwest builder, whose
outcome is an input of the model.  Construction reads no base address and
performs no URL parsing. -/
def Client.new (test : Bool) (builderOk : Bool) : Except Error Client :=
  if builderOk then .ok ⟨test⟩ else .error (.ReqwestError .builder)

/-- src/lib.rs Client::base_uri: selects the hard-coded base address by
the test flag, parses it, and joins the operation path onto it, at request
time.  none models the panic of either expect. -/
def base_uri (test : Bool) (path : String) : Option Url :=
  let url_str := if test then "https://appapi2.test.bankid.com/rp/v5.1/"
                 else "https://appapi2.bankid.com/rp/v5.1/"
  (urlParse url_str).bind (fun u => urlJoin u path)

/-! ## Transport and response classification (src/lib.rs Client::send) -/

/-- An HTTP response as seen by the client: a status code and a decoded
JSON body. -/
structure HttpResponse where
  status : Nat
  body : Json

/-- Outcome of executing a request: either a failure before any HTTP
status is available (connect, TLS, timeout), or a response. -/
inductive TransportResult where
  | failed (msg : String)
  | response (r : HttpResponse)

/-- reqwest StatusCode::is_success: 2xx. -/
def is2xx (status : Nat) : Bool := 200 ≤ status && status < 300

/-- src/lib.rs Client::send::<T>: propagate a transport failure as
Error::ReqwestError; on a 2xx status decode the body as T (a decode
failure is a reqwest error, propagated by the question mark as
Error::ReqwestError); on any other status decode the body as ClientError
and surface Error::ClientError (again, a decode failure of the error body
is propagated as Error::ReqwestError). -/
def send {T : Type} (decodeT : Json → Option T) :
    TransportResult → Except Error T
  | .failed msg => .error (.ReqwestError (.transport msg))
  | .response r =>
    if is2xx r.status then
      match decodeT r.body with
      | some t => .ok t
      | none => .error (.ReqwestError .decode)
    else
      match decodeClientError r.body with
      | some err => .error (.ClientError err)
      | none => .error (.ReqwestError .decode)

/-- src/lib.rs Client::auth: posts the serialized request to the auth
path and classifies the response through send.  The transport outcome is
an input of the model. -/
def Client.auth (_c : Client) (_r : AuthRequest) (tr : TransportResult) :
    Except Error OrderResponse :=
  send decodeOrderResponse tr

/-- src/lib.rs Client::sign. -/
def Client.sign (_c : Client) (_r : SignRequest) (tr : TransportResult) :
    Except Error OrderResponse :=
  send decodeOrderResponse tr

/-- src/lib.rs Client::collect. -/
def Client.collect (_c : Client) (_r : CollectRequest) (tr : TransportResult) :
    Except Error CollectResponse :=
  send decodeCollectResponse tr

/-- src/lib.rs Client::cancel: sends and discards the CancelResponse. -/
def Client.cancel (_c : Client) (_r : CancelRequest) (tr : TransportResult) :
    Except Error Unit :=
  (send decodeCancelResponse tr).map (fun _ => ())

end BankidRs



namespace BankidRs

/-! ## Digit string arithmetic lemmas -/

theorem char_toNat_inj {a b : Char} (h : a.toNat = b.toNat) : a = b :=
  Char.ext (UInt32.ext h)

theorem dval_le_nine {c : Char} (h : isDigitc c = true) : dval c ≤ 9 := by
  simp [isDigitc] at h
  unfold dval
  omega

theorem digit_eq_of_dval_eq {a b : Char} (ha : isDigitc a = true)
    (hb : isDigitc b = true) (h : dval a = dval b) : a = b := by
  simp [isDigitc] at ha hb
  unfold dval at h
  exact char_toNat_inj (by omega)

theorem val_append_single (l : List Char) (c : Char) :
    val (l ++ [c]) = 10 * val l + dval c := by
  induction l with
  | nil => simp [val]
  | cons a as ih =>
    have hlen : (as ++ [c]).length = as.length + 1 := by simp
    simp only [List.cons_append, val, List.append_eq, hlen, ih, pow_succ]
    ring

theorem val_lt (l : List Char) (h : l.all isDigitc = true) :
    val l < 10 ^ l.length := by
  induction l with
  | nil => simp [val]
  | cons a as ih =>
    simp only [List.all_cons, Bool.and_eq_true] at h
    have h9 : dval a ≤ 9 := dval_le_nine h.1
    have hlt : val as < 10 ^ as.length := ih h.2
    have hmul : dval a * 10 ^ as.length ≤ 9 * 10 ^ as.length :=
      Nat.mul_le_mul_right _ h9
    simp only [val, List.length_cons, pow_succ]
    omega

theorem val_replicate_zero (k : Nat) (l : List Char) :
    val (List.replicate k '0' ++ l) = val l := by
  induction k with
  | zero => simp
  | succ n ih =>
    have h0 : dval '0' = 0 := by decide
    simp [List.replicate_succ, val, ih, h0]

theorem dval_digitChar {d : Nat} (h : d < 10) : dval (digitChar d) = d := by
  interval_cases d <;> decide

theorem isDigitc_digitChar {d : Nat} (h : d < 10) : isDigitc (digitChar d) = true := by
  interval_cases d <;> decide

theorem digitsAux_spec :
    ∀ fuel n, n < fuel →
      val (digitsAux fuel n) = n ∧ (digitsAux fuel n).all isDigitc = true ∧
        digitsAux fuel n ≠ [] := by
  intro fuel
  induction fuel with
  | zero => intro n h; omega
  | succ f ih =>
    intro n h
    by_cases h10 : n < 10
    · simp only [digitsAux, if_pos h10]
      refine ⟨?_, ?_, by simp⟩
      · simp [val, dval_digitChar h10]
      · simp [isDigitc_digitChar h10]
    · have hrec := ih (n / 10) (by omega)
      simp only [digitsAux, if_neg h10]
      refine ⟨?_, ?_, by simp⟩
      · rw [val_append_single, hrec.1, dval_digitChar (Nat.mod_lt n (by omega))]
        omega
      · simp [List.all_append, hrec.2.1, isDigitc_digitChar (Nat.mod_lt n (by omega))]

theorem digitsAux_len :
    ∀ fuel n w, n < fuel → 1 ≤ w → n < 10 ^ w →
      (digitsAux fuel n).length ≤ w := by
  intro fuel
  induction fuel with
  | zero => intro n w h; omega
  | succ f ih =>
    intro n w h hw hpow
    by_cases h10 : n < 10
    · simp only [digitsAux, if_pos h10, List.length_cons, List.length_nil]
      omega
    · have hw2 : 2 ≤ w := by
        rcases Nat.lt_or_ge w 2 with hlt | hge
        · exfalso
          have hw1 : w = 1 := by omega
          rw [hw1, pow_one] at hpow
          omega
        · exact hge
      have hsplit : 10 ^ w = 10 ^ (w - 1) * 10 := by
        conv_lhs => rw [← Nat.sub_add_cancel hw]
        rw [pow_succ]
      have hdiv : n / 10 < 10 ^ (w - 1) := by
        rw [Nat.div_lt_iff_lt_mul (by omega)]
        omega
      have hr := ih (n / 10) (w - 1) (by omega) (by omega) hdiv
      simp only [digitsAux, if_neg h10, List.length_append, List.length_cons,
        List.length_nil]
      omega

theorem val_inj (l1 : List Char) :
    ∀ l2, l1.all isDigitc = true → l2.all isDigitc = true →
      l1.length = l2.length → val l1 = val l2 → l1 = l2 := by
  induction l1 with
  | nil =>
    intro l2 _ _ hlen _
    cases l2 with
    | nil => rfl
    | cons b bs => simp at hlen
  | cons a as ih =>
    intro l2 h1 h2 hlen hval
    cases l2 with
    | nil => simp at hlen
    | cons b bs =>
      simp only [List.all_cons, Bool.and_eq_true] at h1 h2
      simp only [List.length_cons, Nat.succ.injEq] at hlen
      simp only [val] at hval
      rw [← hlen] at hval
      have hP : 0 < 10 ^ as.length := Nat.pos_pow_of_pos _ (by omega)
      have hva : val as < 10 ^ as.length := val_lt _ h1.2
      have hvb : val bs < 10 ^ as.length := by
        have := val_lt bs h2.2
        rwa [← hlen] at this
      have hdq : ∀ x r, r < 10 ^ as.length →
          (x * 10 ^ as.length + r) / 10 ^ as.length = x := by
        intro x r hr
        rw [Nat.mul_comm, Nat.add_comm, Nat.add_mul_div_left _ _ hP,
          Nat.div_eq_of_lt hr]
        omega
      have hd : dval a = dval b := by
        have hda := hdq (dval a) (val as) hva
        have hdb := hdq (dval b) (val bs) hvb
        rw [← hda, ← hdb, hval]
      have hvv : val as = val bs := by
        rw [hd] at hval
        omega
      have hab : a = b := digit_eq_of_dval_eq h1.1 h2.1 hd
      rw [hab, ih bs h1.2 h2.2 hlen hvv]

theorem natDecimal_val (n : Nat) : val (natDecimal n) = n :=
  (digitsAux_spec (n + 1) n (Nat.lt_succ_self n)).1

theorem natDecimal_all (n : Nat) : (natDecimal n).all isDigitc = true :=
  (digitsAux_spec (n + 1) n (Nat.lt_succ_self n)).2.1

theorem natDecimal_len {n w : Nat} (hw : 1 ≤ w) (h : n < 10 ^ w) :
    (natDecimal n).length ≤ w :=
  digitsAux_len (n + 1) n w (Nat.lt_succ_self n) hw h

theorem replicate_zero_all (k : Nat) :
    (List.replicate k '0').all isDigitc = true := by
  rw [List.all_eq_true]
  intro x hx
  rw [List.mem_replicate] at hx
  rw [hx.2]
  decide

theorem fmtNat_val (w n : Nat) : val (fmtNat w n) = n := by
  unfold fmtNat zeroPad
  rw [val_replicate_zero, natDecimal_val]

theorem fmtNat_all (w n : Nat) : (fmtNat w n).all isDigitc = true := by
  unfold fmtNat zeroPad
  rw [List.all_append, Bool.and_eq_true]
  exact ⟨replicate_zero_all _, natDecimal_all _⟩

theorem fmtNat_len {w n : Nat} (hw : 1 ≤ w) (h : n < 10 ^ w) :
    (fmtNat w n).length = w := by
  unfold fmtNat zeroPad
  rw [List.length_append, List.length_replicate]
  have := natDecimal_len hw h
  omega

theorem fmt_inverse (l : List Char) (hall : l.all isDigitc = true)
    (hne : 1 ≤ l.length) : fmtNat l.length (val l) = l := by
  have hlt : val l < 10 ^ l.length := val_lt _ hall
  exact val_inj _ _ (fmtNat_all _ _) hall (fmtNat_len hne hlt) (fmtNat_val _ _)

end BankidRs

namespace BankidRs

/-! ## Structure of a successful regular expression match -/

theorem matchRest_shape {l g2 g3 g4 : List Char}
    (h : matchRest l = some (g2, g3, g4)) :
    g2.length = 2 ∧ g2.all isDigitc = true ∧
    g3.length = 2 ∧ g3.all isDigitc = true ∧
    g4.length = 4 ∧ g4.all isDigitc = true ∧
    (l = g2 ++ g3 ++ g4 ∨
      ∃ sp, isSepc sp = true ∧ l = g2 ++ g3 ++ sp :: g4) := by
  unfold matchRest at h
  split at h
  next m1 m2 d1 d2 rest =>
    split at h
    next hdig =>
      simp only [Bool.and_eq_true] at hdig
      split at h
      next n1 n2 n3 n4 =>
        split at h
        next hdig2 =>
          simp only [Bool.and_eq_true] at hdig2
          simp only [Option.some.injEq, Prod.mk.injEq] at h
          obtain ⟨h2, h3, h4⟩ := h
          subst h2; subst h3; subst h4
          refine ⟨rfl, ?_, rfl, ?_, rfl, ?_, Or.inl rfl⟩ <;>
            simp [hdig.1.1.1, hdig.1.1.2, hdig.1.2, hdig.2,
              hdig2.1.1.1, hdig2.1.1.2, hdig2.1.2, hdig2.2]
        next => exact Option.noConfusion h
      next sp n1 n2 n3 n4 =>
        split at h
        next hsep =>
          simp only [Bool.and_eq_true] at hsep
          simp only [Option.some.injEq, Prod.mk.injEq] at h
          obtain ⟨h2, h3, h4⟩ := h
          subst h2; subst h3; subst h4
          refine ⟨rfl, ?_, rfl, ?_, rfl, ?_, Or.inr ⟨sp, hsep.1, rfl⟩⟩ <;>
            simp [hdig.1.1.1, hdig.1.1.2, hdig.1.2, hdig.2,
              hsep.2.1.1.1, hsep.2.1.1.2, hsep.2.1.2, hsep.2.2]
        next => exact Option.noConfusion h
      next => exact Option.noConfusion h
    next => exact Option.noConfusion h
  next => exact Option.noConfusion h

theorem pnoCaptures_shape {s g1 g2 g3 g4 : List Char}
    (h : pnoCaptures s = some (g1, g2, g3, g4)) :
    (g1.length = 3 ∨ (g1.length = 4 ∧ g1.all isDigitc = true)) ∧
    g2.length = 2 ∧ g2.all isDigitc = true ∧
    g3.length = 2 ∧ g3.all isDigitc = true ∧
    g4.length = 4 ∧ g4.all isDigitc = true ∧
    (s = g1 ++ g2 ++ g3 ++ g4 ∨
      ∃ sp, isSepc sp = true ∧ s = g1 ++ g2 ++ g3 ++ sp :: g4) := by
  unfold pnoCaptures at h
  split at h
  next y1 y2 y3 rest =>
    split at h
    next caps heq =>
      -- the first alternative of group 1 matched
      split at heq
      next hcond =>
        rw [Option.map_eq_some'] at heq
        obtain ⟨g, hg, hfg⟩ := heq
        obtain ⟨hl2, ha2, hl3, ha3, hl4, ha4, hshape⟩ :=
          @matchRest_shape rest g.1 g.2.1 g.2.2 (by rw [hg])
        rw [← hfg] at h
        simp only [Option.some.injEq, Prod.mk.injEq] at h
        obtain ⟨hg1, hg2, hg3, hg4⟩ := h
        subst hg1; subst hg2; subst hg3; subst hg4
        refine ⟨Or.inl rfl, hl2, ha2, hl3, ha3, hl4, ha4, ?_⟩
        rcases hshape with hs | ⟨sp, hsp, hs⟩
        · exact Or.inl (by rw [hs]; simp)
        · exact Or.inr ⟨sp, hsp, by rw [hs]; simp⟩
      next => exact Option.noConfusion heq
    next heq =>
      -- the first alternative failed: the second alternative of group 1
      split at h
      next y4 rest2 =>
        split at h
        next hcond =>
          simp only [Bool.and_eq_true] at hcond
          rw [Option.map_eq_some'] at h
          obtain ⟨g, hg, hfg⟩ := h
          obtain ⟨hl2, ha2, hl3, ha3, hl4, ha4, hshape⟩ :=
            @matchRest_shape rest2 g.1 g.2.1 g.2.2 (by rw [hg])
          simp only [Prod.mk.injEq] at hfg
          obtain ⟨hg1, hg2, hg3, hg4⟩ := hfg
          subst hg1; subst hg2; subst hg3; subst hg4
          refine ⟨Or.inr ⟨rfl, by
            simp [hcond.1.1.1, hcond.1.1.2, hcond.1.2, hcond.2]⟩,
            hl2, ha2, hl3, ha3, hl4, ha4, ?_⟩
          rcases hshape with hs | ⟨sp, hsp, hs⟩
          · exact Or.inl (by rw [hs]; simp)
          · exact Or.inr ⟨sp, hsp, by rw [hs]; simp⟩
        next => exact Option.noConfusion h
      next => exact Option.noConfusion h
  next => exact Option.noConfusion h

/-! ## Characterization of parse -/

theorem parse_part_cases (m : Nat) (l : List Char) :
    parse_part m l = .ok (val l) ∨
      parse_part m l =
        .error (.InvalidPersonalNumber "Failed to parse match to numeric value") := by
  unfold parse_part
  split
  · exact Or.inl rfl
  · exact Or.inr rfl

theorem parse_part_ok {m : Nat} {l : List Char} {x : Nat}
    (h : parse_part m l = .ok x) :
    x = val l ∧ l.all isDigitc = true ∧ l ≠ [] ∧ val l ≤ m := by
  unfold parse_part at h
  split at h
  next hc =>
    simp only [Bool.and_eq_true, Bool.not_eq_true', decide_eq_true_eq] at hc
    simp only [Except.ok.injEq] at h
    refine ⟨h.symm, hc.1.2, ?_, hc.2⟩
    intro hnil
    rw [hnil] at hc
    simp at hc
  next => exact Except.noConfusion h

theorem parse_ok {s : List Char} {p : PersonalNumer}
    (h : PersonalNumer.parse s = .ok p) :
    ∃ g1 g2 g3 g4, pnoCaptures s = some (g1, g2, g3, g4) ∧
      g1.all isDigitc = true ∧ g1 ≠ [] ∧
      p = ⟨val g1, val g2, val g3, val g4⟩ := by
  unfold PersonalNumer.parse at h
  split at h
  next => exact Except.noConfusion h
  next g1 g2 g3 g4 heq =>
    split at h
    next => exact Except.noConfusion h
    next year h1 =>
      split at h
      next => exact Except.noConfusion h
      next month h2 =>
        split at h
        next => exact Except.noConfusion h
        next day h3 =>
          split at h
          next => exact Except.noConfusion h
          next lfd h4 =>
            obtain ⟨hv1, hdig, hne, _⟩ := parse_part_ok h1
            obtain ⟨hv2, _, _, _⟩ := parse_part_ok h2
            obtain ⟨hv3, _, _, _⟩ := parse_part_ok h3
            obtain ⟨hv4, _, _, _⟩ := parse_part_ok h4
            simp only [Except.ok.injEq] at h
            refine ⟨g1, g2, g3, g4, heq, hdig, hne, ?_⟩
            rw [← h, hv1, hv2, hv3, hv4]

end BankidRs

namespace BankidRs

/-! ## Totality and rejection structure of parse -/

theorem parse_part_error {m : Nat} {l : List Char} {e : Error}
    (h : parse_part m l = .error e) :
    e = .InvalidPersonalNumber "Failed to parse match to numeric value" := by
  rcases parse_part_cases m l with hc | hc <;> rw [hc] at h
  · exact Except.noConfusion h
  · simp only [Except.error.injEq] at h
    exact h.symm

theorem parse_total (s : List Char) :
    (∃ p, PersonalNumer.parse s = .ok p) ∨
      isInvalidPersonalNumber (PersonalNumer.parse s) = true := by
  unfold PersonalNumer.parse
  split
  · exact Or.inr rfl
  next g1 g2 g3 g4 heq =>
    split
    next e h1 => rw [parse_part_error h1]; exact Or.inr rfl
    next year h1 =>
      split
      next e h2 => rw [parse_part_error h2]; exact Or.inr rfl
      next month h2 =>
        split
        next e h3 => rw [parse_part_error h3]; exact Or.inr rfl
        next day h3 =>
          split
          next e h4 => rw [parse_part_error h4]; exact Or.inr rfl
          next lfd h4 => exact Or.inl ⟨_, rfl⟩

theorem digit_not_sep {c : Char} (h : isDigitc c = true) : isSepc c = false := by
  cases hc : isSepc c
  · rfl
  · exfalso
    simp only [isSepc, Bool.or_eq_true, decide_eq_true_eq] at hc
    rcases hc with rfl | rfl <;> exact absurd h (by decide)

theorem parse_ok_shapeFacts {s : List Char} {p : PersonalNumer}
    (h : PersonalNumer.parse s = .ok p) :
    (s.length = 11 ∨ s.length = 12 ∨ s.length = 13) ∧ goodShape s := by
  obtain ⟨g1, g2, g3, g4, hcap, hdig1, hne, hp⟩ := parse_ok h
  obtain ⟨hg1, hl2, ha2, hl3, ha3, hl4, ha4, hshape⟩ := pnoCaptures_shape hcap
  have hlen1 : g1.length = 3 ∨ g1.length = 4 := by
    rcases hg1 with h3 | h4
    · exact Or.inl h3
    · exact Or.inr h4.1
  rcases hshape with hs | ⟨sp, hsp, hs⟩
  · subst hs
    constructor
    · simp only [List.length_append, hl2, hl3, hl4]
      omega
    · exact Or.inl (by simp [List.all_append, hdig1, ha2, ha3, ha4])
  · subst hs
    constructor
    · simp only [List.length_append, List.length_cons, hl2, hl3, hl4]
      omega
    · refine Or.inr ⟨g1 ++ g2 ++ g3, sp, g4, by simp, hsp,
        by simp [List.all_append, hdig1, ha2, ha3], ha4, hl4⟩

/-! ## Success of parse on wellformed captures -/

theorem parse_part_isOk {m : Nat} {l : List Char} (hne : l ≠ [])
    (hall : l.all isDigitc = true) (hbound : val l ≤ m) :
    parse_part m l = .ok (val l) := by
  have hie : l.isEmpty = false := by
    cases l with
    | nil => exact absurd rfl hne
    | cons a as => rfl
  simp [parse_part, hie, hall, hbound]

theorem parse_of_captures {s g1 g2 g3 g4 : List Char}
    (hcap : pnoCaptures s = some (g1, g2, g3, g4))
    (hne1 : g1 ≠ []) (ha1 : g1.all isDigitc = true) (hb1 : val g1 ≤ 65535)
    (hne2 : g2 ≠ []) (ha2 : g2.all isDigitc = true) (hb2 : val g2 ≤ 255)
    (hne3 : g3 ≠ []) (ha3 : g3.all isDigitc = true) (hb3 : val g3 ≤ 255)
    (hne4 : g4 ≠ []) (ha4 : g4.all isDigitc = true) (hb4 : val g4 ≤ 65535) :
    PersonalNumer.parse s = .ok ⟨val g1, val g2, val g3, val g4⟩ := by
  simp only [PersonalNumer.parse, hcap, parse_part_isOk hne1 ha1 hb1,
    parse_part_isOk hne2 ha2 hb2, parse_part_isOk hne3 ha3 hb3,
    parse_part_isOk hne4 ha4 hb4]

/-! ## Evaluation of parse on a twelve-digit input -/

theorem parse_render_12 (s : List Char) (hlen : s.length = 12)
    (hdig : s.all isDigitc = true) :
    ∃ p, PersonalNumer.parse s = .ok p ∧ render p = s := by
  rcases s with _ | ⟨c0, s⟩; · simp at hlen
  rcases s with _ | ⟨c1, s⟩; · simp at hlen
  rcases s with _ | ⟨c2, s⟩; · simp at hlen
  rcases s with _ | ⟨c3, s⟩; · simp at hlen
  rcases s with _ | ⟨c4, s⟩; · simp at hlen
  rcases s with _ | ⟨c5, s⟩; · simp at hlen
  rcases s with _ | ⟨c6, s⟩; · simp at hlen
  rcases s with _ | ⟨c7, s⟩; · simp at hlen
  rcases s with _ | ⟨c8, s⟩; · simp at hlen
  rcases s with _ | ⟨c9, s⟩; · simp at hlen
  rcases s with _ | ⟨c10, s⟩; · simp at hlen
  rcases s with _ | ⟨c11, s⟩; · simp at hlen
  have hnil : s = [] := by
    have hz : s.length = 0 := by
      simp only [List.length_cons] at hlen
      omega
    exact List.length_eq_zero.mp hz
  subst hnil
  simp only [List.all_cons, List.all_nil, Bool.and_eq_true, Bool.and_true] at hdig
  obtain ⟨h0, h1, h2, h3, h4, h5, h6, h7, h8, h9, h10, h11⟩ := hdig
  have hmr1 : matchRest [c3, c4, c5, c6, c7, c8, c9, c10, c11] = none := by
    simp [matchRest, digit_not_sep h7]
  have hmr2 : matchRest [c4, c5, c6, c7, c8, c9, c10, c11] =
      some ([c4, c5], [c6, c7], [c8, c9, c10, c11]) := by
    simp [matchRest, h4, h5, h6, h7, h8, h9, h10, h11]
  have hcap : pnoCaptures [c0, c1, c2, c3, c4, c5, c6, c7, c8, c9, c10, c11] =
      some ([c0, c1, c2, c3], [c4, c5], [c6, c7], [c8, c9, c10, c11]) := by
    simp [pnoCaptures, hmr1, hmr2, h0, h1, h2, h3]
  have hpow4 : (10 : Nat) ^ 4 = 10000 := by norm_num
  have hpow2 : (10 : Nat) ^ 2 = 100 := by norm_num
  have hb1 : val [c0, c1, c2, c3] ≤ 65535 := by
    have := val_lt [c0, c1, c2, c3] (by simp [h0, h1, h2, h3])
    simp only [List.length_cons, List.length_nil] at this
    omega
  have hb2 : val [c4, c5] ≤ 255 := by
    have := val_lt [c4, c5] (by simp [h4, h5])
    simp only [List.length_cons, List.length_nil] at this
    omega
  have hb3 : val [c6, c7] ≤ 255 := by
    have := val_lt [c6, c7] (by simp [h6, h7])
    simp only [List.length_cons, List.length_nil] at this
    omega
  have hb4 : val [c8, c9, c10, c11] ≤ 65535 := by
    have := val_lt [c8, c9, c10, c11] (by simp [h8, h9, h10, h11])
    simp only [List.length_cons, List.length_nil] at this
    omega
  have hparse := parse_of_captures hcap
    (by simp) (by simp [h0, h1, h2, h3]) hb1
    (by simp) (by simp [h4, h5]) hb2
    (by simp) (by simp [h6, h7]) hb3
    (by simp) (by simp [h8, h9, h10, h11]) hb4
  refine ⟨_, hparse, ?_⟩
  have e1 := fmt_inverse [c0, c1, c2, c3] (by simp [h0, h1, h2, h3]) (by simp)
  have e2 := fmt_inverse [c4, c5] (by simp [h4, h5]) (by simp)
  have e3 := fmt_inverse [c6, c7] (by simp [h6, h7]) (by simp)
  have e4 := fmt_inverse [c8, c9, c10, c11] (by simp [h8, h9, h10, h11]) (by simp)
  simp only [List.length_cons, List.length_nil] at e1 e2 e3 e4
  show fmtNat 4 (val [c0, c1, c2, c3]) ++ fmtNat 2 (val [c4, c5]) ++
      fmtNat 2 (val [c6, c7]) ++ fmtNat 4 (val [c8, c9, c10, c11]) =
      [c0, c1, c2, c3, c4, c5, c6, c7, c8, c9, c10, c11]
  rw [e1, e2, e3, e4]
  simp

end BankidRs

namespace BankidRs

/-! ## Field bounds of parsed values -/

theorem parse_ok_bounds {s : List Char} {p : PersonalNumer}
    (h : PersonalNumer.parse s = .ok p) :
    p.year < 10000 ∧ p.month < 100 ∧ p.day < 100 ∧ p.last_four_digits < 10000 := by
  obtain ⟨g1, g2, g3, g4, hcap, ha1, hne1, hpeq⟩ := parse_ok h
  obtain ⟨hg1, hl2, ha2, hl3, ha3, hl4, ha4, _⟩ := pnoCaptures_shape hcap
  subst hpeq
  have hv1 := val_lt g1 ha1
  have hv2 := val_lt g2 ha2
  have hv3 := val_lt g3 ha3
  have hv4 := val_lt g4 ha4
  rw [hl2] at hv2
  rw [hl3] at hv3
  rw [hl4] at hv4
  have hpow2 : (10 : Nat) ^ 2 = 100 := by norm_num
  have hpow3 : (10 : Nat) ^ 3 = 1000 := by norm_num
  have hpow4 : (10 : Nat) ^ 4 = 10000 := by norm_num
  refine ⟨?_, by simpa [hpow2] using hv2, by simpa [hpow2] using hv3,
    by simpa [hpow4] using hv4⟩
  show val g1 < 10000
  rcases hg1 with h3 | ⟨h4, _⟩
  · rw [h3, hpow3] at hv1
    omega
  · rw [h4, hpow4] at hv1
    exact hv1

/-! ## Claim theorems: the identity number parser -/

/-- Claim C1, amended.  The claim as frozen names the accepted lengths 10,
12, 13; on the code the lengths a match can have are 11, 12 and 13 (the
first regex alternative matches a three-character year group), so the
amended statement is: for every input whose length is not 11, 12 or 13, or
that contains a non-digit character anywhere other than the single
optional separator position before the last four digits, parse returns the
InvalidIdentityNumber error. -/
theorem claim1_rejects_malformed (s : List Char)
    (h : ¬ (s.length = 11 ∨ s.length = 12 ∨ s.length = 13) ∨ ¬ goodShape s) :
    isInvalidPersonalNumber (PersonalNumer.parse s) = true := by
  rcases parse_total s with ⟨p, hp⟩ | hinv
  · exfalso
    obtain ⟨hlen, hshape⟩ := parse_ok_shapeFacts hp
    rcases h with h | h
    · exact h hlen
    · exact h hshape
  · exact hinv

/-- Claim C1 counterexample: an all-digit input of length 11, a length
outside the set 10, 12, 13 named by the claim and with no non-digit
characters, on which parse nevertheless succeeds (the first regex
alternative matches a three-character year group, here the year 987). -/
theorem claim1_counterexample :
    ¬ (("98710101234".toList).length = 10 ∨ ("98710101234".toList).length = 12 ∨
        ("98710101234".toList).length = 13) ∧
    ("98710101234".toList).all isDigitc = true ∧
    PersonalNumer.parse ("98710101234".toList) = .ok ⟨987, 10, 10, 1234⟩ :=
  ⟨by decide, by decide, rfl⟩

/-- Claim C1 witness: a concrete input of length 5 is rejected. -/
theorem claim1_witness :
    isInvalidPersonalNumber (PersonalNumer.parse ("12345".toList)) = true :=
  claim1_rejects_malformed _ (Or.inl (by decide))

/-- Claim C3, amended.  parse performs no calendar range validation: the
month and day fields of every successfully parsed value are only known to
lie in the two-digit range 0 to 99. -/
theorem claim3_month_day_bounds (s : List Char) (p : PersonalNumer)
    (h : PersonalNumer.parse s = .ok p) : p.month ≤ 99 ∧ p.day ≤ 99 := by
  obtain ⟨_, hm, hd, _⟩ := parse_ok_bounds h
  exact ⟨by omega, by omega⟩

/-- Claim C3 counterexample: parse accepts month 99 and day 99, outside
the ranges 1 to 12 and 1 to 31 stated by the claim. -/
theorem claim3_counterexample :
    PersonalNumer.parse ("198799991234".toList) = .ok ⟨1987, 99, 99, 1234⟩ ∧
    ¬ (1 ≤ (PersonalNumer.mk 1987 99 99 1234).month ∧
        (PersonalNumer.mk 1987 99 99 1234).month ≤ 12 ∧
        1 ≤ (PersonalNumer.mk 1987 99 99 1234).day ∧
        (PersonalNumer.mk 1987 99 99 1234).day ≤ 31) :=
  ⟨rfl, by decide⟩

/-- Claim C3 witness: the bounds applied at a concrete parsed value. -/
theorem claim3_witness :
    (PersonalNumer.mk 1987 10 10 1234).month ≤ 99 ∧
      (PersonalNumer.mk 1987 10 10 1234).day ≤ 99 :=
  claim3_month_day_bounds ("198710101234".toList) _ rfl

/-- Claim C4: every twelve-digit string parses and re-renders to itself,
and render then parse then render is the identity on every parse result. -/
theorem claim4_roundtrip :
    (∀ s : List Char, s.length = 12 → s.all isDigitc = true →
      ∃ p, PersonalNumer.parse s = .ok p ∧ render p = s) ∧
    (∀ (s : List Char) (p : PersonalNumer), PersonalNumer.parse s = .ok p →
      ∃ q, PersonalNumer.parse (render p) = .ok q ∧ render q = render p) := by
  refine ⟨parse_render_12, ?_⟩
  intro s p hp
  obtain ⟨hy, hm, hd, hl⟩ := parse_ok_bounds hp
  have hpow2 : (10 : Nat) ^ 2 = 100 := by norm_num
  have hpow4 : (10 : Nat) ^ 4 = 10000 := by norm_num
  have l1 : (fmtNat 4 p.year).length = 4 :=
    fmtNat_len (by norm_num) (by rw [hpow4]; exact hy)
  have l2 : (fmtNat 2 p.month).length = 2 :=
    fmtNat_len (by norm_num) (by rw [hpow2]; exact hm)
  have l3 : (fmtNat 2 p.day).length = 2 :=
    fmtNat_len (by norm_num) (by rw [hpow2]; exact hd)
  have l4 : (fmtNat 4 p.last_four_digits).length = 4 :=
    fmtNat_len (by norm_num) (by rw [hpow4]; exact hl)
  have hlen : (render p).length = 12 := by
    unfold render
    simp [List.length_append, l1, l2, l3, l4]
  have hall : (render p).all isDigitc = true := by
    unfold render
    simp [List.all_append, fmtNat_all]
  exact parse_render_12 (render p) hlen hall

/-- Claim C4 witness: the round trip at a concrete canonical string. -/
theorem claim4_witness :
    ∃ p, PersonalNumer.parse ("199901030101".toList) = .ok p ∧
      render p = "199901030101".toList :=
  claim4_roundtrip.1 _ (by decide) (by decide)

/-- Claim C5: every input of length 10 is rejected (the regex match is 11
to 13 characters long, so a bare two-digit year form never parses and no
century is ever inferred), and a parsed value with a four-digit year, at
least 1000, always spells that year in the first four digit characters of
the input. -/
theorem claim5_no_century_inference (s : List Char) :
    (s.length = 10 → isInvalidPersonalNumber (PersonalNumer.parse s) = true) ∧
    (∀ p, PersonalNumer.parse s = .ok p → 1000 ≤ p.year →
      (s.take 4).all isDigitc = true ∧ val (s.take 4) = p.year) := by
  constructor
  · intro hlen
    rcases parse_total s with ⟨p, hp⟩ | hinv
    · obtain ⟨hl, _⟩ := parse_ok_shapeFacts hp
      rcases hl with h | h | h <;> omega
    · exact hinv
  · intro p hp hyear
    obtain ⟨g1, g2, g3, g4, hcap, ha1, hne1, hpeq⟩ := parse_ok hp
    obtain ⟨hg1, hl2, _, hl3, _, hl4, _, hshape⟩ := pnoCaptures_shape hcap
    subst hpeq
    have hyv : (1000 : Nat) ≤ val g1 := hyear
    have hlen4 : g1.length = 4 := by
      rcases hg1 with h3 | h4
      · exfalso
        have hv := val_lt g1 ha1
        have hpow3 : (10 : Nat) ^ 3 = 1000 := by norm_num
        rw [h3, hpow3] at hv
        omega
      · exact h4.1
    have hpre : ∃ rest, s = g1 ++ rest := by
      rcases hshape with hs | ⟨sp, _, hs⟩
      · exact ⟨g2 ++ g3 ++ g4, by rw [hs]; simp⟩
      · exact ⟨g2 ++ g3 ++ sp :: g4, by rw [hs]; simp⟩
    have htake : s.take 4 = g1 := by
      obtain ⟨rest, hs⟩ := hpre
      rw [hs, ← hlen4]
      exact List.take_left _ _
    rw [htake]
    exact ⟨ha1, rfl⟩

/-- Claim C5 witness: the ten-digit two-digit-year form is rejected, and
the concrete parse of 198710101234 reads its year from the first four
digits. -/
theorem claim5_witness :
    isInvalidPersonalNumber (PersonalNumer.parse ("8710101234".toList)) = true ∧
    val (("198710101234".toList).take 4) = 1987 :=
  ⟨(claim5_no_century_inference _).1 (by decide),
    ((claim5_no_century_inference ("198710101234".toList)).2
      ⟨1987, 10, 10, 1234⟩ rfl (by decide)).2⟩

end BankidRs

namespace BankidRs

/-! ## Claim theorems: responses, requests, transport, addresses -/

/-- Claim C2, amended.  The Pending variant of CollectResponse carries a
required orderRef field, so the body named by the claim, which has only
status and hintCode, fails to decode; with an orderRef added the body
decodes to Pending with hint OutstandingTransaction.  A status tag outside
pending, failed, complete is a decode error, never a default variant. -/
theorem claim2_collect_decoding :
    decodeCollectResponse (.obj [("status", .str "pending"),
      ("orderRef", .str "00000000-0000-0000-0000-000000000000"),
      ("hintCode", .str "outstandingTransaction")]) =
      some (.Pending .OutstandingTransaction
        ⟨"00000000-0000-0000-0000-000000000000"⟩) ∧
    (∀ (fields : List (String × Json)) (st : String),
      jget "status" fields = some (.str st) →
      st ≠ "pending" → st ≠ "failed" → st ≠ "complete" →
      decodeCollectResponse (.obj fields) = none) := by
  refine ⟨by decide, ?_⟩
  intro fields st hst h1 h2 h3
  simp only [decodeCollectResponse, hst]
  rw [if_neg h1, if_neg h2, if_neg h3]

/-- Claim C2 counterexample: the exact body named by the claim, with no
orderRef, does not decode, because the Pending variant requires the
orderRef field. -/
theorem claim2_counterexample :
    decodeCollectResponse (.obj [("status", .str "pending"),
      ("hintCode", .str "outstandingTransaction")]) = none := by
  decide

/-- Claim C2 witness: a concrete unknown status tag fails to decode. -/
theorem claim2_witness :
    decodeCollectResponse (.obj [("status", .str "unknown")]) = none :=
  claim2_collect_decoding.2 _ "unknown" rfl (by decide) (by decide) (by decide)

/-- Claim C6: in the source the personal_number field of SignRequest,
unlike every other optional field of the request structs, carries no
skip_serializing_if attribute, so an absent personal number serializes as
the key personalNumber with a JSON null in a sign request, while an auth
request omits the key entirely.  The claim, and section 4.2 of the
specification, require the key to be omitted in both; the missing
attribute on this one field is a slip in the code. -/
theorem claim6_sign_emits_null :
    serializeAuthRequest ⟨⟨"127.0.0.1"⟩, none, none⟩ =
      .obj [("endUserIp", .str "127.0.0.1")] ∧
    serializeSignRequest ⟨⟨"127.0.0.1"⟩, none, none, none, none⟩ =
      .obj [("endUserIp", .str "127.0.0.1"), ("personalNumber", .null)] :=
  ⟨rfl, rfl⟩

/-- Claim C7, amended.  Response classification of Client::send, uniform
over every operation: a failure before any HTTP status is a transport
error; a 2xx body that decodes is the success payload; a non-2xx body that
decodes as a ClientError payload is a server error; but a non-2xx body
that does not decode as the ClientError shape surfaces as the transport
error kind, Error::ReqwestError, even though a body was received, so the
claim clause never-a-generic-transport-error-once-a-body-was-received does
not hold on the code.  The four operations all classify through send. -/
theorem claim7_response_classification :
    (∀ {T : Type} (dec : Json → Option T),
      (∀ msg, send dec (.failed msg) =
        .error (.ReqwestError (.transport msg))) ∧
      (∀ st body t, is2xx st = true → dec body = some t →
        send dec (.response ⟨st, body⟩) = .ok t) ∧
      (∀ st body ce, is2xx st = false → decodeClientError body = some ce →
        send dec (.response ⟨st, body⟩) = .error (.ClientError ce)) ∧
      (∀ st body, is2xx st = false → decodeClientError body = none →
        send dec (.response ⟨st, body⟩) = .error (.ReqwestError .decode))) ∧
    (∀ c r tr, Client.auth c r tr = send decodeOrderResponse tr) ∧
    (∀ c r tr, Client.sign c r tr = send decodeOrderResponse tr) ∧
    (∀ c r tr, Client.collect c r tr = send decodeCollectResponse tr) ∧
    (∀ c r tr, Client.cancel c r tr =
      (send decodeCancelResponse tr).map (fun _ => ())) := by
  refine ⟨?_, fun _ _ _ => rfl, fun _ _ _ => rfl, fun _ _ _ => rfl,
    fun _ _ _ => rfl⟩
  intro T dec
  refine ⟨fun msg => rfl, ?_, ?_, ?_⟩
  · intro st body t h2 hdec
    simp [send, h2, hdec]
  · intro st body ce h2 hdec
    simp [send, h2, hdec]
  · intro st body h2 hdec
    simp [send, h2, hdec]

/-- Claim C7 counterexample: a non-2xx response whose received body is not
a ClientError payload surfaces as the generic transport error kind,
Error::ReqwestError, not as a server error, although a body was
received. -/
theorem claim7_counterexample :
    send decodeOrderResponse (.response ⟨400, .obj []⟩) =
      .error (.ReqwestError .decode) := rfl

/-- Claim C7 witness: concrete classifications through the theorem. -/
theorem claim7_witness :
    send decodeOrderResponse (.failed "connection refused") =
      .error (.ReqwestError (.transport "connection refused")) ∧
    send decodeOrderResponse (.response ⟨400,
      .obj [("errorCode", .str "alreadyInProgress"), ("details", .str "x")]⟩) =
      .error (.ClientError ⟨.AlreadyInProgress, "x"⟩) :=
  ⟨(claim7_response_classification.1 decodeOrderResponse).1 _,
    (claim7_response_classification.1 decodeOrderResponse).2.2.1 400 _ _ rfl rfl⟩

/-- Claim C8, amended.  A 2xx body that fails to decode into the expected
success shape surfaces as Error::ReqwestError carrying the reqwest decode
condition: the same library-level error variant as a transport failure,
distinguishable only inside the wrapped reqwest error.  The library Error
type has exactly three variants and defines no separate fourth
unexpected-response-shape variant. -/
theorem claim8_decode_failure_is_reqwest_kind :
    ∀ {T : Type} (dec : Json → Option T) (st : Nat) (body : Json),
      is2xx st = true → dec body = none →
      send dec (.response ⟨st, body⟩) = .error (.ReqwestError .decode) := by
  intro T dec st body h2 hdec
  simp [send, h2, hdec]

/-- Claim C8 counterexample: a 2xx response whose body is not the success
shape is surfaced under the same Error constructor, ReqwestError, as a
pre-status transport failure, so no separate fourth error condition
exists at the level of the Error type. -/
theorem claim8_counterexample :
    send decodeOrderResponse (.response ⟨200, .obj []⟩) =
      .error (.ReqwestError .decode) ∧
    send decodeOrderResponse (.failed "timeout") =
      .error (.ReqwestError (.transport "timeout")) :=
  ⟨rfl, rfl⟩

/-- Claim C8 witness: the amended classification at a concrete input. -/
theorem claim8_witness :
    send decodeOrderResponse (.response ⟨201, .null⟩) =
      .error (.ReqwestError .decode) :=
  claim8_decode_failure_is_reqwest_kind decodeOrderResponse 201 .null rfl rfl

/-- Claim C9.  The base-address configuration surface of the client is the
test flag alone: both hard-coded base addresses are wellformed, so no
malformed base-address configuration exists at all and the construction
clause of the claim holds with an empty antecedent; Client.new never
consults the base address and can only fail through the reqwest builder;
and base_uri, evaluated at request time, succeeds for every operation
path under every configuration, so no operation is ever the point at
which a malformed base address is detected. -/
theorem claim9_base_address_wellformed :
    ∀ t : Bool,
      (urlParse (if t then "https://appapi2.test.bankid.com/rp/v5.1/"
        else "https://appapi2.bankid.com/rp/v5.1/")).isSome = true ∧
      (∀ p, p = "auth" ∨ p = "sign" ∨ p = "collect" ∨ p = "cancel" →
        (base_uri t p).isSome = true) ∧
      (∀ b, Client.new t b = .ok ⟨t⟩ ∨
        Client.new t b = .error (.ReqwestError .builder)) := by
  intro t
  refine ⟨by cases t <;> rfl, ?_, ?_⟩
  · intro p hp
    rcases hp with rfl | rfl | rfl | rfl <;> cases t <;> rfl
  · intro b
    cases b
    · exact Or.inr rfl
    · exact Or.inl rfl

/-- Claim C9 witness: the auth path resolves in the test environment. -/
theorem claim9_witness : (base_uri true "auth").isSome = true :=
  (claim9_base_address_wellformed true).2.1 "auth" (Or.inl rfl)

/-- Claim C10.  The Canceled hint code uses the wire literal cancelled,
through the explicit serde rename: it decodes from and re-encodes to the
double-l spelling, and the plain camelCase literal canceled fails to
decode as a hint code.  Every other hint code and every error code,
including ErrorCode::Canceled, uses exactly the camelCase form of its
variant name, and decoding inverts encoding on all of them. -/
theorem claim10_wire_spellings :
    collectHintCodeFromWire "cancelled" = some .Canceled ∧
    CollectHintCode.wire .Canceled = "cancelled" ∧
    collectHintCodeFromWire "canceled" = none ∧
    (∀ h : CollectHintCode, collectHintCodeFromWire h.wire = some h) ∧
    (∀ e : ErrorCode, errorCodeFromWire e.wire = some e) ∧
    CollectHintCode.wire .OutstandingTransaction = "outstandingTransaction" ∧
    CollectHintCode.wire .NoClient = "noClient" ∧
    CollectHintCode.wire .Started = "started" ∧
    CollectHintCode.wire .UserSign = "userSign" ∧
    CollectHintCode.wire .ExpiredTransaction = "expiredTransaction" ∧
    CollectHintCode.wire .CertificateErr = "certificateErr" ∧
    CollectHintCode.wire .UserCancel = "userCancel" ∧
    CollectHintCode.wire .StartFailed = "startFailed" ∧
    ErrorCode.wire .AlreadyInProgress = "alreadyInProgress" ∧
    ErrorCode.wire .InvalidParameters = "invalidParameters" ∧
    ErrorCode.wire .Canceled = "canceled" ∧
    ErrorCode.wire .Unauthorized = "unauthorized" ∧
    ErrorCode.wire .NotFound = "notFound" ∧
    ErrorCode.wire .RequestTimeout = "requestTimeout" ∧
    ErrorCode.wire .UnsupportedMediaType = "unsupportedMediaType" ∧
    ErrorCode.wire .InternalError = "internalError" ∧
    ErrorCode.wire .Maintenance = "maintenance" := by
  refine ⟨rfl, rfl, rfl, ?_, ?_, rfl, rfl, rfl, rfl, rfl, rfl, rfl, rfl,
    rfl, rfl, rfl, rfl, rfl, rfl, rfl, rfl, rfl⟩
  · intro h
    cases h <;> rfl
  · intro e
    cases e <;> rfl

/-- Claim C10 witness: the decode-encode round trip at concrete codes. -/
theorem claim10_witness :
    collectHintCodeFromWire (CollectHintCode.wire .NoClient) = some .NoClient ∧
    errorCodeFromWire (ErrorCode.wire .Maintenance) = some .Maintenance :=
  ⟨claim10_wire_spellings.2.2.2.1 .NoClient,
    claim10_wire_spellings.2.2.2.2.1 .Maintenance⟩

end BankidRs
